import Mathlib

/-!
Shallow embedding of the Lab-Scheduler booking core (`app.py`):
the conflict checker, the store accessor's shaping of raw tables,
and the commit/cancel read-modify-write cycle, together with
theorems checking the specification's claims about them.
-/

namespace LabScheduler

/-! ### Time helpers (app.py lines 158, 359-364)

`TIME_STRINGS = [f"{hour:02d}:00" for hour in range(8, 20)]` and the
booking form's `strptime(... , "%H:%M")` / `+ timedelta(hours=1)` /
`strftime("%H:%M")` computation of `end_time_str`. -/

/-- Python's `f"{n:02d}"`: decimal rendering padded to two digits. -/
def fmt2 (n : Nat) : String :=
  if n < 10 then "0" ++ toString n else toString n

/-- `f"{h:02d}:{m:02d}"`-style "HH:MM" rendering (what `strftime("%H:%M")` emits). -/
def fmtHM (h m : Nat) : String :=
  fmt2 h ++ ":" ++ fmt2 m

/-- The fixed hourly slot labels `08:00` .. `19:00`. -/
def TIME_STRINGS : List String :=
  (List.range' 8 12).map (fun h => fmt2 h ++ ":00")

/-- Python `s.strip()` on the character list: drop whitespace at both ends. -/
def trimChars (cs : List Char) : List Char :=
  ((cs.dropWhile Char.isWhitespace).reverse.dropWhile Char.isWhitespace).reverse

/-- Split a character list at every colon (the `":"` of `"%H:%M"`). -/
def splitColon : List Char → List (List Char)
  | [] => [[]]
  | c :: rest =>
    if c = ':' then [] :: splitColon rest
    else
      match splitColon rest with
      | a :: as => (c :: a) :: as
      | [] => [[c]]

/-- Decimal value of a digit string. -/
def digitsVal (cs : List Char) : Nat :=
  cs.foldl (fun n c => n * 10 + (c.toNat - 48)) 0

/-- `datetime.strptime(s.strip(), "%H:%M")`, kept as the time-of-day pair:
`%H` and `%M` each match one or two decimal digits, hour below 24 and
minute below 60; anything else raises, modelled as `none`. -/
def parseHM (s : String) : Option (Nat × Nat) :=
  match splitColon (trimChars s.toList) with
  | [hs, ms] =>
    if 1 ≤ hs.length ∧ hs.length ≤ 2 ∧ hs.all Char.isDigit ∧
       1 ≤ ms.length ∧ ms.length ≤ 2 ∧ ms.all Char.isDigit then
      let h := digitsVal hs
      let m := digitsVal ms
      if h < 24 ∧ m < 60 then some (h, m) else none
    else none
  | _ => none

/-- Lines 359-364: `end_time_str = (strptime(start) + timedelta(hours=1)).strftime("%H:%M")`;
a parse failure is `st.stop()` (`none`). Adding one hour wraps at midnight
because `strftime` only renders the time of day. -/
def end_time_of (s : String) : Option String :=
  (parseHM s).map (fun p => fmtHM ((p.1 + 1) % 24) p.2)

/-- Minutes since midnight of a parsed "HH:MM" string. -/
def timeMinutes (s : String) : Option Nat :=
  (parseHM s).map (fun p => p.1 * 60 + p.2)

/-! ### Reservation rows and the conflict checker (app.py lines 184-193) -/

/-- One reservation row, with the six worksheet columns as strings
(the shape `get_data` guarantees for well-formed sheets). -/
structure Row where
  researcher : String
  equipment : String
  date : String
  start_time : String
  end_time : String
  created_at : String
deriving DecidableEq, Repr

/-- Python's `"Both" in s`: does the four-character substring `Both`
occur anywhere in `s`? -/
def hasBothChars : List Char → Bool
  | 'B' :: 'o' :: 't' :: 'h' :: _ => true
  | _ :: rest => hasBothChars rest
  | [] => false

/-- `"Both" in equipment` on the string. -/
def containsBoth (s : String) : Bool :=
  hasBothChars s.toList

/-- Lines 184-193.  `check_conflict(df, date_str, start_time_str, equipment)`:
empty frame means no conflict; filter rows matching date and start time;
if the subset is empty return `False`; otherwise return `True` as soon as
some booked equipment equals the proposal's, or either label contains
`"Both"`. -/
def check_conflict (df : List Row) (date_str start_time_str equipment : String) : Bool :=
  if df.isEmpty then false
  else
    let subset := df.filter (fun r => r.date == date_str && r.start_time == start_time_str)
    if subset.isEmpty then false
    else subset.any (fun r =>
      equipment == r.equipment || containsBoth equipment || containsBoth r.equipment)

/-! ### Typed store state: `get_data` caching and `update_data` (lines 165-182)

`get_data` is wrapped in `st.cache_data(ttl=5)`: a cached frame (possibly
stale) is returned when present, otherwise the worksheet is read and cached.
`update_data` overwrites the whole worksheet and then calls
`st.cache_data.clear()`. -/

/-- The persisted worksheet contents plus the `st.cache_data` cache for it. -/
structure SheetState where
  store : List Row
  cache : Option (List Row)
deriving DecidableEq, Repr

/-- The cached read: serve the cache when present, else read the store
and fill the cache.  Returns the frame seen by the caller and the state. -/
def get_data_typed (s : SheetState) : List Row × SheetState :=
  match s.cache with
  | some df => (df, s)
  | none => (s.store, { store := s.store, cache := some s.store })

/-- Lines 179-182: `conn.update(...)` overwrites the worksheet, then
`st.cache_data.clear()` empties the cache. -/
def update_data (df : List Row) (_s : SheetState) : SheetState :=
  { store := df, cache := none }

/-! ### Commit: the "Confirm Booking" branch (app.py lines 353-384)

The form computes `end_time_str` from `start_time_str` first (a parse
failure calls `st.stop()` before any commit can happen).  On the button
press the code checks `if not researcher_name` FIRST, then loads the
frame, then runs `check_conflict`, and only writes when both gates pass. -/

/-- Outcome of a Confirm Booking press. -/
inductive CommitResult where
  | validationError
  | conflictError
  | ok
deriving DecidableEq, Repr

/-- Lines 374-381: the `new_entry` row appended on a successful booking. -/
def new_entry (researcher equipment date_str start_time end_time created_at : String) : Row :=
  { researcher := researcher
    equipment := equipment
    date := date_str
    start_time := start_time
    end_time := end_time
    created_at := created_at }

/-- Lines 359-384.  `none` is the `st.stop()` on a time-format error;
otherwise the pair of the user-visible outcome and the resulting sheet
state.  `now` stands for `datetime.now().strftime(...)` at commit time. -/
def confirmBooking (s : SheetState) (researcher equipment date_str start_time now : String) :
    Option (CommitResult × SheetState) :=
  match end_time_of start_time with
  | none => none
  | some end_time =>
    if researcher = "" then some (.validationError, s)
    else
      let p := get_data_typed s
      if check_conflict p.1 date_str start_time equipment then some (.conflictError, p.2)
      else
        let row := new_entry researcher equipment date_str start_time end_time now
        some (.ok, update_data (p.1 ++ [row]) p.2)

/-! ### Cancel: the "Cancel Slot" tab (app.py lines 386-410)

The tab loads the frame, adds a transient `display_label` column, sorts by
`Date` descending, lets the user pick an INDEX LABEL from `df.index`, and
on the delete press runs `df.drop(index=label).drop(columns=["display_label"])`
and overwrites.  A label absent from the index makes pandas `drop` raise an
uncaught `KeyError`. -/

/-- The pandas row index: after `get_data` the frame carries the default
integer labels `0, 1, ...` in sheet order. -/
def indexRows (i : Nat) : List Row → List (Nat × Row)
  | [] => []
  | r :: rs => (i, r) :: indexRows (i + 1) rs

/-- Lines 391-396: the transient `display_label` column,
`Date | Start_Time | Researcher | Equipment`. -/
def display_label (r : Row) : String :=
  r.date ++ " | " ++ r.start_time ++ " | " ++ r.researcher ++ " | " ++ r.equipment

/-- Attach the `display_label` column to a labelled row. -/
def withDisplay (p : Nat × Row) : Nat × Row × String :=
  (p.1, p.2, display_label p.2)

/-- Lexicographic order on character lists by code point, the order Python
and pandas use on strings. -/
def leCharList : List Char → List Char → Bool
  | [], _ => true
  | _ :: _, [] => false
  | a :: as, b :: bs =>
    if a.toNat < b.toNat then true
    else if b.toNat < a.toNat then false
    else leCharList as bs

/-- `sort_values(by="Date", ascending=False)` comparison: `a` may come
before `b` when its date is the later one. -/
def dateDesc (a b : Nat × Row × String) : Bool :=
  leCharList b.2.1.date.toList a.2.1.date.toList

/-- Insert into an already sorted list, first position whose head compares
below the new element. -/
def orderedInsertD (x : Nat × Row × String) :
    List (Nat × Row × String) → List (Nat × Row × String)
  | [] => [x]
  | y :: ys => if dateDesc x y then x :: y :: ys else y :: orderedInsertD x ys

/-- The sort behind `sort_values(by="Date", ascending=False)`: it permutes
the rows (keeping their index labels) into date-descending order. -/
def sortByDateDesc : List (Nat × Row × String) → List (Nat × Row × String)
  | [] => []
  | x :: xs => orderedInsertD x (sortByDateDesc xs)

/-- Outcome of a Delete Selected Booking press. -/
inductive CancelResult where
  | noBookings
  | keyError
  | ok
deriving DecidableEq, Repr

/-- Lines 386-410.  The tab does nothing when the frame is empty; otherwise
dropping an index label that is still present removes exactly the rows so
labelled, strips `display_label`, and overwrites; dropping an absent label
raises `KeyError` (no write). -/
def cancelSlot (s : SheetState) (k : Nat) : CancelResult × SheetState :=
  let p := get_data_typed s
  if p.1.isEmpty then (.noBookings, p.2)
  else
    let sorted := sortByDateDesc ((indexRows 0 p.1).map withDisplay)
    if sorted.any (fun q => q.1 == k) then
      let df_new := (sorted.filter (fun q => q.1 != k)).map (fun q => q.2.1)
      (.ok, update_data df_new p.2)
    else (.keyError, p.2)

/-! ### The raw worksheet and `get_data`'s shaping (app.py lines 165-177)

`conn.read` yields a pandas frame whose cells may be missing (`NaN`) and
whose `Date` column may have been type-inferred into date objects.
`get_data` returns an empty frame with the six expected columns when the
frame is empty or lacks a required column; otherwise it runs
`df["Date"] = df["Date"].astype(str)` and THEN `df.fillna("")`. -/

/-- A raw cell value as the backing store may deliver it: a string, or a
date object produced by pandas type inference. -/
inductive Val where
  | str (s : String)
  | dateObj (y m d : Nat)
deriving DecidableEq, Repr

/-- Python `str()` on a cell value; `str(datetime.date(y, m, d))` is ISO
`YYYY-MM-DD`. -/
def valToStr : Val → String
  | .str s => s
  | .dateObj y m d => fmt2 (y / 100) ++ fmt2 (y % 100) ++ "-" ++ fmt2 m ++ "-" ++ fmt2 d

/-- A cell: `none` is a missing value (pandas `NaN`). -/
abbrev Cell := Option Val

/-- `astype(str)` on one cell: every value is stringified; a missing value
stringifies to the literal string `"nan"` (pandas renders `NaN` that way),
so it is no longer missing afterwards. -/
def cellAstype (c : Cell) : Cell :=
  some (.str (match c with | none => "nan" | some v => valToStr v))

/-- `fillna("")` on one cell. -/
def fillCell (c : Cell) : Cell :=
  match c with
  | none => some (.str "")
  | some v => some v

/-- A raw worksheet frame: named columns and rows of cells. -/
structure RawTable where
  cols : List String
  rows : List (List Cell)
deriving DecidableEq, Repr

/-- Line 170: the six required columns. -/
def expected_cols : List String :=
  ["Researcher", "Equipment", "Date", "Start_Time", "End_Time", "Created_At"]

/-- `pd.DataFrame(columns=expected_cols)`: no rows, the six columns. -/
def emptyShaped : RawTable :=
  { cols := expected_cols, rows := [] }

/-- pandas `df.empty`: true when either axis has length zero. -/
def dfEmpty (t : RawTable) : Bool :=
  t.rows.isEmpty || t.cols.isEmpty

/-- What lines 173-174 do to one row: `astype(str)` on the cell in the
`Date` column (position `di`), then `fillna("")` on every cell. -/
def shapeRow (di : Nat) (r : List Cell) : List Cell :=
  (r.mapIdx (fun j c => if j = di then cellAstype c else c)).map fillCell

/-- Lines 166-174 of `get_data`, at the raw level: the empty/missing-column
guard, then `astype(str)` on the `Date` column, then `fillna("")` on the
whole frame. -/
def get_data (t : RawTable) : RawTable :=
  if dfEmpty t || !(expected_cols.all (fun c => t.cols.contains c)) then emptyShaped
  else
    let di := t.cols.findIdx (fun c => c == "Date")
    { cols := t.cols
      rows := t.rows.map (shapeRow di) }

/-! ### Column-level view of the two write paths (app.py lines 374-382, 391-406)

What column set does each write hand to `conn.update`?  The commit path
writes `pd.concat([df, new_entry], ignore_index=True)` — concat takes the
first frame's columns and appends any new ones; `new_entry` has exactly the
six expected columns.  The cancel path adds a `display_label` column to the
loaded frame and drops it again before writing. -/

/-- `pd.concat` column union: the first frame's columns, then the second's
new ones in order. -/
def concatCols (a b : List String) : List String :=
  a ++ b.filter (fun c => !a.contains c)

/-- Columns written by a successful Confirm Booking for backing table `t`. -/
def commitWrittenCols (t : RawTable) : List String :=
  concatCols (get_data t).cols expected_cols

/-- Column assignment `df["display_label"] = ...`: appended when new. -/
def addCol (c : String) (cols : List String) : List String :=
  if cols.contains c then cols else cols ++ [c]

/-- Columns written by a successful Delete Selected Booking for backing
table `t`: add `display_label`, sort (column-preserving), drop it. -/
def cancelWrittenCols (t : RawTable) : List String :=
  (addCol "display_label" (get_data t).cols).filter (fun c => c != "display_label")

/-! ### Helper lemmas -/

/-- Rendering a valid time of day and parsing it back is the identity. -/
theorem parse_fmtHM : ∀ h < 24, ∀ m < 60, parseHM (fmtHM h m) = some (h, m) := by
  set_option maxRecDepth 10000 in decide

/-- A successful parse yields an hour below 24 and a minute below 60. -/
theorem parseHM_bounds {s : String} {h m : Nat} (hp : parseHM s = some (h, m)) :
    h < 24 ∧ m < 60 := by
  unfold parseHM at hp
  split at hp
  · split at hp
    · dsimp only at hp
      split at hp
      · rename_i hb
        injection hp with hp
        injection hp with hp1 hp2
        omega
      · cases hp
    · cases hp
  · cases hp

/-- Characterization of `end_time_of`: it succeeds exactly on a parsed
start time and renders the hour-plus-one clock time. -/
theorem end_time_of_eq {s endS : String} (he : end_time_of s = some endS) :
    ∃ h m, parseHM s = some (h, m) ∧ endS = fmtHM ((h + 1) % 24) m := by
  unfold end_time_of at he
  cases hp : parseHM s with
  | none => rw [hp] at he; cases he
  | some p =>
    obtain ⟨h, m⟩ := p
    rw [hp] at he
    simp only [Option.map_some', Option.some.injEq] at he
    exact ⟨h, m, rfl, he.symm⟩

/-- The end time computed by the booking form is sixty minutes after the
start time, modulo one day. -/
theorem end_time_minutes {s endS : String} (he : end_time_of s = some endS) :
    ∃ tm, timeMinutes s = some tm ∧ timeMinutes endS = some ((tm + 60) % 1440) := by
  obtain ⟨h, m, hp, hfmt⟩ := end_time_of_eq he
  obtain ⟨hh, hm⟩ := parseHM_bounds hp
  refine ⟨h * 60 + m, ?_, ?_⟩
  · unfold timeMinutes; rw [hp]; rfl
  · unfold timeMinutes
    rw [hfmt, parse_fmtHM ((h + 1) % 24) (Nat.mod_lt _ (by omega)) m hm]
    have : (h + 1) % 24 * 60 + m = (h * 60 + m + 60) % 1440 := by omega
    simp [this]

/-- `get_data_typed` never changes the persisted store. -/
theorem get_data_typed_store (s : SheetState) : (get_data_typed s).2.store = s.store := by
  unfold get_data_typed
  cases s.cache <;> rfl

/-- When the cache is empty, `get_data_typed` reads the persisted store. -/
theorem get_data_typed_of_cache_none {s : SheetState} (h : s.cache = none) :
    (get_data_typed s).1 = s.store := by
  unfold get_data_typed
  rw [h]

/-- The conflict checker returns `true` exactly when some reservation in
the frame matches the proposed date and start time and collides on
equipment by the equality-or-`"Both"` rule. -/
theorem check_conflict_eq_true_iff (df : List Row) (d t e : String) :
    check_conflict df d t e = true ↔
      ∃ r, r ∈ df ∧ r.date = d ∧ r.start_time = t ∧
        (e = r.equipment ∨ containsBoth e = true ∨ containsBoth r.equipment = true) := by
  unfold check_conflict
  split
  · rename_i h0
    rw [List.isEmpty_iff] at h0
    subst h0
    simp
  · dsimp only
    split
    · rename_i h1
      constructor
      · intro hfalse; cases hfalse
      · rintro ⟨r, hr, hd, ht, _⟩
        exfalso
        rw [List.isEmpty_iff] at h1
        have hmem : r ∈ df.filter (fun r => r.date == d && r.start_time == t) := by
          rw [List.mem_filter]
          exact ⟨hr, by simp [hd, ht]⟩
        rw [h1] at hmem
        cases hmem
    · rw [List.any_eq_true]
      constructor
      · rintro ⟨r, hr, hcond⟩
        rw [List.mem_filter] at hr
        obtain ⟨hrdf, hmatch⟩ := hr
        rw [Bool.and_eq_true, beq_iff_eq, beq_iff_eq] at hmatch
        rw [Bool.or_eq_true, Bool.or_eq_true, beq_iff_eq] at hcond
        exact ⟨r, hrdf, hmatch.1, hmatch.2, by tauto⟩
      · rintro ⟨r, hr, hd, ht, hc⟩
        refine ⟨r, ?_, ?_⟩
        · rw [List.mem_filter]
          exact ⟨hr, by simp [hd, ht]⟩
        · rw [Bool.or_eq_true, Bool.or_eq_true, beq_iff_eq]
          tauto

/-- Inserting with `orderedInsertD` permutes to consing. -/
theorem perm_orderedInsertD (x : Nat × Row × String) (l : List (Nat × Row × String)) :
    List.Perm (orderedInsertD x l) (x :: l) := by
  induction l with
  | nil => exact List.Perm.refl _
  | cons y ys ih =>
    unfold orderedInsertD
    split
    · exact List.Perm.refl _
    · exact (ih.cons y).trans (List.Perm.swap x y ys)

/-- The date sort is a permutation of its input. -/
theorem perm_sortByDateDesc (l : List (Nat × Row × String)) :
    List.Perm (sortByDateDesc l) l := by
  induction l with
  | nil => exact List.Perm.refl _
  | cons x xs ih => exact (perm_orderedInsertD x (sortByDateDesc xs)).trans (ih.cons x)

/-- A label occurs in `indexRows i rs` exactly for positions `i ≤ k < i + |rs|`. -/
theorem mem_indexRows_label : ∀ (rs : List Row) (i k : Nat),
    (∃ p, p ∈ indexRows i rs ∧ p.1 = k) ↔ (i ≤ k ∧ k < i + rs.length) := by
  intro rs
  induction rs with
  | nil =>
    intro i k
    constructor
    · rintro ⟨p, hp, -⟩; cases hp
    · intro hk; simp only [List.length_nil] at hk; omega
  | cons r rest ih =>
    intro i k
    constructor
    · rintro ⟨p, hp, hk⟩
      rcases List.mem_cons.mp hp with h | h
      · subst h; subst hk; simp only [List.length_cons]; omega
      · have := (ih (i + 1) k).mp ⟨p, h, hk⟩
        simp only [List.length_cons]; omega
    · intro hk
      by_cases hik : k = i
      · exact ⟨(i, r), List.mem_cons_self _ _, hik.symm⟩
      · simp only [List.length_cons] at hk
        obtain ⟨p, hp, hpk⟩ := (ih (i + 1) k).mpr (by omega)
        exact ⟨p, List.mem_cons_of_mem _ hp, hpk⟩

/-- Dropping a label below every index keeps all rows. -/
theorem indexRows_filter_lt : ∀ (rs : List Row) (i k : Nat), k < i →
    (((indexRows i rs).filter (fun p => p.1 != k)).map Prod.snd) = rs := by
  intro rs
  induction rs with
  | nil => intro i k _; rfl
  | cons r rest ih =>
    intro i k hk
    have hne : (i != k) = true := by simp only [bne_iff_ne, ne_eq]; omega
    simp only [indexRows, List.filter_cons, hne, if_true, List.map_cons]
    rw [ih (i + 1) k (by omega)]

/-- Dropping the label `i + d` from `indexRows i rs` removes exactly the
row at position `d`. -/
theorem indexRows_filter_eraseIdx : ∀ (rs : List Row) (i d : Nat),
    (((indexRows i rs).filter (fun p => p.1 != (i + d))).map Prod.snd) = rs.eraseIdx d := by
  intro rs
  induction rs with
  | nil => intro i d; rfl
  | cons r rest ih =>
    intro i d
    cases d with
    | zero =>
      have heq : (i != i + 0) = false := by simp
      simp only [indexRows, List.filter_cons, heq, if_false, List.eraseIdx_cons_zero]
      exact indexRows_filter_lt rest (i + 1) (i + 0) (by omega)
    | succ d' =>
      have hne : (i != i + (d' + 1)) = true := by simp only [bne_iff_ne, ne_eq]; omega
      simp only [indexRows, List.filter_cons, hne, if_true, List.map_cons,
        List.eraseIdx_cons_succ]
      have harith : i + (d' + 1) = (i + 1) + d' := by omega
      rw [harith, ih (i + 1) d']

/-- Stripping the display column after the label filter is the plain
label filter followed by the row projection. -/
theorem cancel_filter_map_eq (rs : List Row) (k : Nat) :
    ((((indexRows 0 rs).map withDisplay).filter (fun q => q.1 != k)).map (fun q => q.2.1)) =
      (((indexRows 0 rs).filter (fun p => p.1 != k)).map Prod.snd) := by
  have h1 : ((fun q : Nat × Row × String => q.1 != k) ∘ withDisplay) =
      (fun p : Nat × Row => p.1 != k) := rfl
  have h2 : ((fun q : Nat × Row × String => q.2.1) ∘ withDisplay) =
      (Prod.snd : Nat × Row → Row) := rfl
  rw [List.filter_map, h1, List.map_map, h2]

/-- A successful Confirm Booking appends exactly the one new row to the
loaded frame, overwrites the store with it, and clears the cache. -/
theorem confirmBooking_ok_store :
    ∀ (s : SheetState) (r e d t n : String) (s' : SheetState),
      confirmBooking s r e d t n = some (CommitResult.ok, s') →
      ∃ endT, end_time_of t = some endT ∧
        s' = { store := (get_data_typed s).1 ++ [new_entry r e d t endT n], cache := none } := by
  intro s r e d t n s' hc
  unfold confirmBooking at hc
  cases he : end_time_of t with
  | none => rw [he] at hc; cases hc
  | some endT =>
    rw [he] at hc
    dsimp only at hc
    by_cases hr : r = ""
    · rw [if_pos hr] at hc
      simp only [Option.some.injEq, Prod.mk.injEq] at hc
      cases hc.1
    · rw [if_neg hr] at hc
      split at hc
      · simp only [Option.some.injEq, Prod.mk.injEq] at hc
        cases hc.1
      · simp only [Option.some.injEq, Prod.mk.injEq] at hc
        exact ⟨endT, rfl, hc.2.symm⟩

/-! ### Concrete fixtures for witnesses and counterexamples -/

/-- A booked slot on room 427's sheet. -/
def exRowA : Row :=
  ⟨"alice", "EEG System A", "2025-03-10", "10:00", "11:00", "2025-03-01 09:00:00"⟩

/-- A second booked slot, a day later. -/
def exRowB : Row :=
  ⟨"bob", "EEG System B", "2025-03-11", "11:00", "12:00", "2025-03-02 09:00:00"⟩

/-- Equipment label in which `Both` occurs only incidentally. -/
def exRowIncidental : Row :=
  ⟨"carol", "Bothell Kit", "2025-03-10", "10:00", "11:00", "2025-03-03 09:00:00"⟩

/-- Sheet holding only `exRowA`, cold cache. -/
def exStateA : SheetState := ⟨[exRowA], none⟩

/-- The state after a cached read of `exStateA`. -/
def exStateA2 : SheetState := ⟨[exRowA], some [exRowA]⟩

/-- Sheet holding `exRowA` then `exRowB`, cold cache. -/
def exStateAB : SheetState := ⟨[exRowA, exRowB], none⟩

/-- Sheet holding only `exRowB`, cold cache: the fresh state seen after a
concurrent cancel removed `exRowA` and the remaining row shifted to label 0. -/
def exStateB : SheetState := ⟨[exRowB], none⟩

/-- Empty sheet, cold cache. -/
def exStateEmpty : SheetState := ⟨[], none⟩

/-- Store state after booking `alice` on the empty sheet. -/
def exStateAfter : SheetState :=
  ⟨[new_entry "alice" "EEG System A" "2025-03-10" "10:00" "11:00" "2025-03-05 08:00:00"], none⟩

/-- Store state after booking `dave` on top of `exStateA`. -/
def exStateAfterB : SheetState :=
  ⟨[exRowA, new_entry "dave" "EEG System B" "2025-03-12" "11:00" "12:00" "2025-03-05 08:00:00"],
    none⟩

/-- A raw table lacking five of the six required columns. -/
def exRawBad : RawTable := ⟨["Researcher"], [[some (.str "x")]]⟩

/-- A raw table with the six columns and one row whose Date cell is missing. -/
def exRawMissingDate : RawTable :=
  ⟨expected_cols,
    [[some (.str "alice"), some (.str "EEG System A"), none,
      some (.str "10:00"), some (.str "11:00"), some (.str "ts")]]⟩

/-- A fully populated single-row raw table with the six columns. -/
def exRawSix : RawTable :=
  ⟨expected_cols,
    [[some (.str "alice"), some (.str "EEG System A"), some (.str "2025-03-10"),
      some (.str "10:00"), some (.str "11:00"), some (.str "ts")]]⟩

/-! ### The claims -/

/-- C1: for every reservation set and proposal, `check_conflict` returns
true iff some reservation matches the proposal's date and start time
exactly and collides on equipment (equal label, or either side a combined
`"Both"` variant); in particular it returns false whenever no reservation
matches the date and start time. -/
theorem conflict_checker_iff_slot_collision (df : List Row) (d t e : String) :
    (check_conflict df d t e = true ↔
      ∃ r, r ∈ df ∧ r.date = d ∧ r.start_time = t ∧
        (e = r.equipment ∨ containsBoth e = true ∨ containsBoth r.equipment = true)) ∧
    ((∀ r ∈ df, ¬(r.date = d ∧ r.start_time = t)) → check_conflict df d t e = false) := by
  refine ⟨check_conflict_eq_true_iff df d t e, ?_⟩
  intro hnone
  cases hcc : check_conflict df d t e
  · rfl
  · obtain ⟨r, hr, hd, ht, -⟩ := (check_conflict_eq_true_iff df d t e).mp hcc
    exact absurd ⟨hd, ht⟩ (hnone r hr)

/-- Witness for C1 at a concrete set and proposal with no matching slot. -/
theorem conflict_checker_iff_slot_collision_witness :
    check_conflict [exRowA] "2025-03-12" "10:00" "EEG System A" = false :=
  (conflict_checker_iff_slot_collision [exRowA] "2025-03-12" "10:00" "EEG System A").2
    (by decide)

/-- C2: a failed Confirm Booking (conflict on the freshly loaded frame, or
empty researcher name) never overwrites the persisted collection. -/
theorem commit_failure_leaves_collection_unchanged :
    ∀ (s : SheetState) (r e d t n : String) (res : CommitResult) (s' : SheetState),
      confirmBooking s r e d t n = some (res, s') → res ≠ CommitResult.ok →
      s'.store = s.store := by
  intro s r e d t n res s' hc hres
  unfold confirmBooking at hc
  cases he : end_time_of t with
  | none => rw [he] at hc; cases hc
  | some endT =>
    rw [he] at hc
    dsimp only at hc
    by_cases hr : r = ""
    · rw [if_pos hr] at hc
      simp only [Option.some.injEq, Prod.mk.injEq] at hc
      rw [← hc.2]
    · rw [if_neg hr] at hc
      split at hc
      · simp only [Option.some.injEq, Prod.mk.injEq] at hc
        rw [← hc.2, get_data_typed_store]
      · simp only [Option.some.injEq, Prod.mk.injEq] at hc
        exact absurd hc.1.symm hres

/-- Witness for C2: a conflicting proposal on `exStateA` fails and the
store is untouched. -/
theorem commit_failure_leaves_collection_unchanged_witness :
    confirmBooking exStateA "bob" "EEG System A" "2025-03-10" "10:00" "now"
        = some (CommitResult.conflictError, exStateA2) ∧
    exStateA2.store = exStateA.store :=
  ⟨by decide,
   commit_failure_leaves_collection_unchanged exStateA "bob" "EEG System A" "2025-03-10"
     "10:00" "now" CommitResult.conflictError exStateA2 (by decide) (by decide)⟩

/-- C7 counterexample: a proposal that both conflicts and has an empty
researcher name fails with the validation outcome, not the conflict one —
the code checks the name before it ever runs the conflict checker. -/
theorem conflict_and_empty_name_gives_validation :
    check_conflict [exRowA] "2025-03-10" "10:00" "EEG System A" = true ∧
    confirmBooking exStateA "" "EEG System A" "2025-03-10" "10:00" "now"
      = some (CommitResult.validationError, exStateA) :=
  ⟨by decide, by decide⟩

/-- C7 (amended): commit validates the researcher name FIRST and only then
re-runs the conflict checker on the freshly loaded frame; an empty name
always yields the validation outcome (even on a conflicting slot), and a
non-empty name with a conflict yields the conflict outcome with no write. -/
theorem commit_validates_name_before_conflict :
    ∀ (s : SheetState) (r e d t n endT : String),
      end_time_of t = some endT →
      (r = "" → confirmBooking s r e d t n = some (CommitResult.validationError, s)) ∧
      (r ≠ "" → check_conflict (get_data_typed s).1 d t e = true →
        confirmBooking s r e d t n = some (CommitResult.conflictError, (get_data_typed s).2)) := by
  intro s r e d t n endT he
  constructor
  · intro hr
    unfold confirmBooking
    rw [he]
    dsimp only
    rw [if_pos hr]
  · intro hr hcf
    unfold confirmBooking
    rw [he]
    dsimp only
    rw [if_neg hr, if_pos hcf]

/-- Witness for the amended C7 at a concrete conflicting proposal. -/
theorem commit_validates_name_before_conflict_witness :
    confirmBooking exStateA "" "EEG System A" "2025-03-10" "10:00" "now"
        = some (CommitResult.validationError, exStateA) ∧
    confirmBooking exStateA "bob" "EEG System A" "2025-03-10" "10:00" "now"
        = some (CommitResult.conflictError, (get_data_typed exStateA).2) :=
  ⟨(commit_validates_name_before_conflict exStateA "" "EEG System A" "2025-03-10" "10:00"
      "now" "11:00" (by decide)).1 rfl,
   (commit_validates_name_before_conflict exStateA "bob" "EEG System A" "2025-03-10" "10:00"
      "now" "11:00" (by decide)).2 (by decide) (by decide)⟩

/-- C9: combined-ness is substring containment of `Both`: whenever some
reservation matches the proposed date and start time and either the
proposal's or the booked equipment label contains `"Both"` anywhere
(including incidental occurrences), the conflict checker returns true. -/
theorem both_substring_forces_conflict :
    ∀ (df : List Row) (d t e : String),
      (∃ r, r ∈ df ∧ r.date = d ∧ r.start_time = t ∧
        (containsBoth e = true ∨ containsBoth r.equipment = true)) →
      check_conflict df d t e = true := by
  rintro df d t e ⟨r, hr, hd, ht, hc⟩
  exact (check_conflict_eq_true_iff df d t e).mpr ⟨r, hr, hd, ht, Or.inr hc⟩

/-- Witness for C9: a booked label containing `Both` only incidentally
still blocks an unrelated proposal in its slot. -/
theorem both_substring_forces_conflict_witness :
    check_conflict [exRowIncidental] "2025-03-10" "10:00" "EEG System A" = true :=
  both_substring_forces_conflict [exRowIncidental] "2025-03-10" "10:00" "EEG System A"
    ⟨exRowIncidental, by decide, by decide, by decide, Or.inr (by decide)⟩

/-- The fixed slot labels never wrap past midnight when one hour is added. -/
theorem time_strings_no_wrap : ∀ t ∈ TIME_STRINGS, (timeMinutes t).getD 1440 + 60 < 1440 := by
  decide

/-- C4: after a successful commit the cache is cleared, so an immediately
following load sees the overwritten store, which contains the newly
committed reservation whose end time is the start time plus sixty minutes
(modulo one day). -/
theorem commit_then_load_contains_new_reservation :
    ∀ (s : SheetState) (r e d t n : String) (s' : SheetState),
      confirmBooking s r e d t n = some (CommitResult.ok, s') →
      s'.cache = none ∧
      ∃ endT, end_time_of t = some endT ∧
        new_entry r e d t endT n ∈ (get_data_typed s').1 ∧
        (∃ tm, timeMinutes t = some tm ∧ timeMinutes endT = some ((tm + 60) % 1440)) := by
  intro s r e d t n s' hc
  obtain ⟨endT, he, hs⟩ := confirmBooking_ok_store s r e d t n s' hc
  subst hs
  refine ⟨rfl, endT, he, ?_, end_time_minutes he⟩
  rw [get_data_typed_of_cache_none rfl]
  exact List.mem_append_right _ (List.mem_singleton_self _)

/-- Witness for C4: booking `alice` on the empty sheet and loading again. -/
theorem commit_then_load_contains_new_reservation_witness :
    exStateAfter.cache = none ∧
    ∃ endT, end_time_of "10:00" = some endT ∧
      new_entry "alice" "EEG System A" "2025-03-10" "10:00" endT "2025-03-05 08:00:00"
        ∈ (get_data_typed exStateAfter).1 ∧
      (∃ tm, timeMinutes "10:00" = some tm ∧ timeMinutes endT = some ((tm + 60) % 1440)) :=
  commit_then_load_contains_new_reservation exStateEmpty "alice" "EEG System A" "2025-03-10"
    "10:00" "2025-03-05 08:00:00" exStateAfter (by decide)

/-- C6: every committed reservation stores an end time computed by the form
as start time plus one hour — sixty minutes later modulo one day, and for
the fixed slot labels of the form exactly sixty minutes later — and the
end time is never independently supplied. -/
theorem committed_end_time_one_hour_after_start :
    ∀ (s : SheetState) (r e d t n : String) (s' : SheetState),
      confirmBooking s r e d t n = some (CommitResult.ok, s') →
      ∃ endT, end_time_of t = some endT ∧
        s'.store = (get_data_typed s).1 ++ [new_entry r e d t endT n] ∧
        (∃ tm, timeMinutes t = some tm ∧ timeMinutes endT = some ((tm + 60) % 1440)) ∧
        (t ∈ TIME_STRINGS → ∃ tm, timeMinutes t = some tm ∧ timeMinutes endT = some (tm + 60)) := by
  intro s r e d t n s' hc
  obtain ⟨endT, he, hs⟩ := confirmBooking_ok_store s r e d t n s' hc
  refine ⟨endT, he, by rw [hs], end_time_minutes he, ?_⟩
  intro ht
  obtain ⟨tm, htm, hetm⟩ := end_time_minutes he
  have hlt : tm + 60 < 1440 := by
    have hw := time_strings_no_wrap t ht
    rw [htm] at hw
    exact hw
  exact ⟨tm, htm, by rw [hetm, Nat.mod_eq_of_lt hlt]⟩

/-- Witness for C6: booking `dave` at 11:00 on top of `exStateA`. -/
theorem committed_end_time_one_hour_after_start_witness :
    ∃ endT, end_time_of "11:00" = some endT ∧
      exStateAfterB.store =
        (get_data_typed exStateA).1 ++
          [new_entry "dave" "EEG System B" "2025-03-12" "11:00" endT "2025-03-05 08:00:00"] ∧
      (∃ tm, timeMinutes "11:00" = some tm ∧ timeMinutes endT = some ((tm + 60) % 1440)) ∧
      ("11:00" ∈ TIME_STRINGS →
        ∃ tm, timeMinutes "11:00" = some tm ∧ timeMinutes endT = some (tm + 60)) :=
  committed_end_time_one_hour_after_start exStateA "dave" "EEG System B" "2025-03-12" "11:00"
    "2025-03-05 08:00:00" exStateAfterB (by decide)

/-- C8: a successful cancel of a still-present index label overwrites the
collection with a permutation of the loaded frame minus exactly the row at
that label; every other reservation survives with all six field values
unchanged. -/
theorem cancel_removes_exactly_selected_row :
    ∀ (s : SheetState) (k : Nat),
      k < (get_data_typed s).1.length →
      ∃ df_new, cancelSlot s k = (CancelResult.ok, { store := df_new, cache := none }) ∧
        List.Perm df_new ((get_data_typed s).1.eraseIdx k) ∧
        df_new.length + 1 = (get_data_typed s).1.length := by
  intro s k hk
  have hne : (get_data_typed s).1.isEmpty = false := by
    cases hdfc : (get_data_typed s).1
    · rw [hdfc] at hk; simp at hk
    · rfl
  have hany : (sortByDateDesc ((indexRows 0 (get_data_typed s).1).map withDisplay)).any
      (fun q => q.1 == k) = true := by
    rw [List.any_eq_true]
    obtain ⟨p, hp, hpk⟩ := (mem_indexRows_label (get_data_typed s).1 0 k).mpr
      ⟨Nat.zero_le k, by omega⟩
    exact ⟨withDisplay p,
      (perm_sortByDateDesc _).mem_iff.mpr (List.mem_map_of_mem _ hp),
      by simp [withDisplay, hpk]⟩
  have hperm : List.Perm
      (((sortByDateDesc ((indexRows 0 (get_data_typed s).1).map withDisplay)).filter
        (fun q => q.1 != k)).map (fun q => q.2.1))
      ((get_data_typed s).1.eraseIdx k) := by
    have hc := ((perm_sortByDateDesc
      ((indexRows 0 (get_data_typed s).1).map withDisplay)).filter
        (fun q => q.1 != k)).map (fun q => q.2.1)
    refine hc.trans ?_
    rw [cancel_filter_map_eq]
    have heq := indexRows_filter_eraseIdx (get_data_typed s).1 0 k
    rw [Nat.zero_add] at heq
    rw [heq]
  refine ⟨_, ?_, hperm, ?_⟩
  · unfold cancelSlot
    dsimp only
    simp only [hne, hany, Bool.false_eq_true, if_false, if_true]
    rfl
  · rw [hperm.length_eq, List.length_eraseIdx_of_lt hk]
    omega

/-- Witness for C8 at a concrete two-row sheet, removing label 0. -/
theorem cancel_removes_exactly_selected_row_witness :
    0 < (get_data_typed exStateAB).1.length ∧
    ∃ df_new, cancelSlot exStateAB 0 = (CancelResult.ok, { store := df_new, cache := none }) ∧
      List.Perm df_new ((get_data_typed exStateAB).1.eraseIdx 0) ∧
      df_new.length + 1 = (get_data_typed exStateAB).1.length :=
  ⟨by decide, cancel_removes_exactly_selected_row exStateAB 0 (by decide)⟩

/-- C3 (code divergence, evaluated): the cancel path identifies its target
only by pandas index label.  After a concurrent cancel shifted `exRowB`
onto label 0, a cancel that referenced the now-vanished `exRowA` silently
succeeds, deleting `exRowB` and overwriting the collection with the empty
frame; an out-of-range label raises an uncaught `KeyError`; no
`NotFoundError` outcome exists anywhere in the operation. -/
theorem cancel_vanished_reservation_eval :
    exRowA ∉ exStateB.store ∧
    cancelSlot exStateB 0 = (CancelResult.ok, { store := [], cache := none }) ∧
    cancelSlot exStateB 1 = (CancelResult.keyError, { store := [exRowB], cache := some [exRowB] }) :=
  ⟨by decide, by decide, by decide⟩

/-- C5 counterexample: a missing Date cell is NOT normalized to the empty
string — `astype(str)` runs before `fillna("")`, so the `NaN` stringifies
to the literal `"nan"`, which `fillna` then leaves alone. -/
theorem load_missing_date_cell_not_empty_string :
    (get_data exRawMissingDate).rows =
      [[some (.str "alice"), some (.str "EEG System A"), some (.str "nan"),
        some (.str "10:00"), some (.str "11:00"), some (.str "ts")]] ∧
    Val.str "nan" ≠ Val.str "" :=
  ⟨by decide, by decide⟩

/-- C5 (amended): loading an empty table or one missing a required column
returns the empty six-column frame (so repeated loads agree); every loaded
cell is non-missing; a missing cell becomes the empty string in every
column except Date, where it becomes the string `"nan"`; and every Date
cell of a loaded row is a string. -/
theorem load_shaping_amended :
    (∀ t : RawTable,
      (dfEmpty t = true ∨ expected_cols.all (fun c => t.cols.contains c) = false) →
      get_data t = emptyShaped) ∧
    (∀ t : RawTable, dfEmpty t = false →
      expected_cols.all (fun c => t.cols.contains c) = true →
      (get_data t).rows = t.rows.map (shapeRow (t.cols.findIdx (fun c => c == "Date")))) ∧
    (∀ t : RawTable, ∀ row ∈ (get_data t).rows, ∀ c ∈ row, c.isSome = true) ∧
    (∀ (di : Nat) (r : List Cell) (j : Nat), r[j]? = some none →
      (shapeRow di r)[j]? = some (some (Val.str (if j = di then "nan" else "")))) ∧
    (∀ (di : Nat) (r : List Cell), di < r.length →
      ∃ str, (shapeRow di r)[di]? = some (some (Val.str str))) := by
  refine ⟨?_, ?_, ?_, ?_, ?_⟩
  · intro t h
    have hcond : (dfEmpty t || !(expected_cols.all (fun c => t.cols.contains c))) = true := by
      rcases h with h | h
      · rw [h]; rfl
      · rw [h]; cases dfEmpty t <;> rfl
    unfold get_data
    rw [if_pos hcond]
  · intro t h1 h2
    have hcond : (dfEmpty t || !(expected_cols.all (fun c => t.cols.contains c))) = false := by
      rw [h1, h2]; rfl
    unfold get_data
    rw [hcond]
    rfl
  · intro t row hrow c hc
    unfold get_data at hrow
    split at hrow
    · cases hrow
    · dsimp only at hrow
      rw [List.mem_map] at hrow
      obtain ⟨r0, -, hr0⟩ := hrow
      subst hr0
      unfold shapeRow at hc
      rw [List.mem_map] at hc
      obtain ⟨x, -, hx⟩ := hc
      subst hx
      cases x <;> rfl
  · intro di r j hj
    unfold shapeRow
    rw [List.getElem?_map, List.getElem?_mapIdx, hj]
    by_cases hji : j = di <;> simp [hji, cellAstype, fillCell]
  · intro di r hdi
    obtain ⟨c, hc⟩ : ∃ c, r[di]? = some c := by
      rw [List.getElem?_eq_getElem hdi]
      exact ⟨_, rfl⟩
    unfold shapeRow
    rw [List.getElem?_map, List.getElem?_mapIdx, hc]
    refine ⟨(match c with | none => "nan" | some v => valToStr v), ?_⟩
    cases c <;> simp [cellAstype, fillCell]

/-- Witness for the amended C5: a malformed table loads as the empty
six-column frame. -/
theorem load_shaping_amended_witness :
    get_data exRawBad = emptyShaped :=
  load_shaping_amended.1 exRawBad (Or.inr (by decide))

/-- C10: both write paths preserve the canonical six-column schema: for a
backing table with exactly the six columns, a commit writes exactly those
six columns (the new row has exactly the six fields) and a cancel strips
the transient `display_label` column before writing; a successful commit
overwrites with the loaded rows plus exactly the one new row. -/
theorem writes_preserve_six_column_schema :
    (∀ t : RawTable, t.cols = expected_cols →
      (get_data t).cols = expected_cols ∧
      commitWrittenCols t = expected_cols ∧
      cancelWrittenCols t = expected_cols) ∧
    (∀ (s : SheetState) (r e d t n : String) (s' : SheetState),
      confirmBooking s r e d t n = some (CommitResult.ok, s') →
      ∃ endT, end_time_of t = some endT ∧
        s'.store = (get_data_typed s).1 ++ [new_entry r e d t endT n]) := by
  constructor
  · intro t ht
    have hcols : (get_data t).cols = expected_cols := by
      unfold get_data
      split
      · rfl
      · dsimp only
        exact ht
    refine ⟨hcols, ?_, ?_⟩
    · unfold commitWrittenCols
      rw [hcols]
      decide
    · unfold cancelWrittenCols
      rw [hcols]
      decide
  · intro s r e d t n s' hc
    obtain ⟨endT, he, hs⟩ := confirmBooking_ok_store s r e d t n s' hc
    exact ⟨endT, he, by rw [hs]⟩

/-- Witness for C10 at a concrete six-column table. -/
theorem writes_preserve_six_column_schema_witness :
    commitWrittenCols exRawSix = expected_cols ∧
    cancelWrittenCols exRawSix = expected_cols :=
  ⟨(writes_preserve_six_column_schema.1 exRawSix (by decide)).2.1,
   (writes_preserve_six_column_schema.1 exRawSix (by decide)).2.2⟩

end LabScheduler
